import Mathlib

/-
Verification development for the voyager DAO governance contract
(src/contract/src/policy.rs, src/contract/src/proposals.rs,
src/contract/src/bounties.rs).

The Rust code is shallow-embedded below. Conventions:
- u128 / u64 / u32 / u8 machine integers are modelled as Nat; the contract
  is compiled with overflow checks (standard NEAR release profile), so any
  arithmetic underflow or overflow is modelled as an abort, as is an
  out-of-bounds index. Aborting computations return Except String, carrying
  the panic or assert message.
- NEAR storage maps (LookupMap, HashMap, HashSet) are modelled as
  association lists with replace-on-insert semantics.
- Promises (value transfers, ft transfers, function calls, upgrades) are
  modelled as a list of emitted Effect descriptors.
- env::predecessor_account_id, env::block_timestamp, env::attached_deposit
  and the voting-weight oracle get_user_weight are packaged in an Env record
  passed to every public operation.
-/

namespace Voyager

abbrev AccountId := String

/-- Helper: assert with a message, modelling assert! / assert_eq!. -/
def ensure (b : Bool) (msg : String) : Except String Unit :=
  if b then Except.ok () else Except.error msg

/-- Association-list lookup, modelling map get. -/
def lookupL {α β : Type} [DecidableEq α] : List (α × β) → α → Option β
  | [], _ => none
  | (k, v) :: rest, a => if k = a then some v else lookupL rest a

/-- Association-list insert with replace-on-collision, modelling map insert. -/
def insertL {α β : Type} [DecidableEq α] : List (α × β) → α → β → List (α × β)
  | [], a, b => [(a, b)]
  | (k, v) :: rest, a, b => if k = a then (a, b) :: rest else (k, v) :: insertL rest a b

/-- Association-list removal, modelling map remove. -/
def removeL {α β : Type} [DecidableEq α] : List (α × β) → α → List (α × β)
  | [], _ => []
  | (k, v) :: rest, a => if k = a then removeL rest a else (k, v) :: removeL rest a

/-- Modelled from the spec: the Action enum and its to_label method live in
src/contract/src/types.rs, which is not among the provided sources. Variants
and labels follow the operation table in section 6 of the spec; VoteApprove
carries a version field, matching its use in policy.rs. -/
inductive Action
  | AddProposal
  | AddCounterProposal
  | VoteApprove (version : Nat)
  | VoteReject
  | VoteRemove
  | WithdrawProposal
  | RemoveProposal
  | Finalize
  | AmendProposal
  deriving DecidableEq

def Action.to_label : Action → String
  | Action.AddProposal => "AddProposal"
  | Action.AddCounterProposal => "AddCounterProposal"
  | Action.VoteApprove _ => "VoteApprove"
  | Action.VoteReject => "VoteReject"
  | Action.VoteRemove => "VoteRemove"
  | Action.WithdrawProposal => "WithdrawProposal"
  | Action.RemoveProposal => "RemoveProposal"
  | Action.Finalize => "Finalize"
  | Action.AmendProposal => "AmendProposal"

/-- Modelled from the spec: BASE_TOKEN, the native-token sentinel token id,
is defined in src/contract/src/types.rs (absent from the sources); the spec
calls it a distinguished token-id string. -/
def BASE_TOKEN : AccountId := ""

/-- The DAO Config (types.rs, absent); its contents are opaque to every
claim, so it is modelled as an opaque string. -/
abbrev Config := String

/-- policy.rs RoleKind. -/
inductive RoleKind
  | Everyone
  | Member (amount : Nat)
  | Group (accounts : List AccountId)
  deriving DecidableEq

structure UserInfo where
  account_id : AccountId
  amount : Nat
  deriving DecidableEq

/-- policy.rs RoleKind::match_user. -/
def RoleKind.match_user : RoleKind → UserInfo → Bool
  | RoleKind.Everyone, _ => true
  | RoleKind.Member amount, user => amount ≤ user.amount
  | RoleKind.Group accounts, user => accounts.contains user.account_id

/-- policy.rs RoleKind::get_role_size. -/
def RoleKind.get_role_size : RoleKind → Option Nat
  | RoleKind.Group accounts => some accounts.length
  | _ => none

/-- policy.rs RoleKind::add_member_to_group. -/
def RoleKind.add_member_to_group : RoleKind → AccountId → Except Unit RoleKind
  | RoleKind.Group accounts, member_id =>
      Except.ok (RoleKind.Group (if accounts.contains member_id then accounts else accounts ++ [member_id]))
  | _, _ => Except.error ()

/-- policy.rs RoleKind::remove_member_from_group. -/
def RoleKind.remove_member_from_group : RoleKind → AccountId → Except Unit RoleKind
  | RoleKind.Group accounts, member_id =>
      Except.ok (RoleKind.Group (accounts.filter (fun a => a ≠ member_id)))
  | _, _ => Except.error ()

/-- policy.rs RolePermission. -/
structure RolePermission where
  name : String
  kind : RoleKind
  permissions : List String
  deriving DecidableEq

/-- policy.rs WeightOrRatio. -/
inductive WeightOrRatio
  | Weight (w : Nat)
  | Ratio (num denom : Nat)
  deriving DecidableEq

/-- policy.rs WeightOrRatio::to_weight. Rust divides u128; division by a
zero denominator panics there, so theorems about the Ratio case carry a
positivity hypothesis on the denominator. -/
def WeightOrRatio.to_weight : WeightOrRatio → Nat → Nat
  | WeightOrRatio.Weight w, total_weight => min w total_weight
  | WeightOrRatio.Ratio num denom, total_weight => min (num * total_weight / denom + 1) total_weight

/-- policy.rs WeightKind. -/
inductive WeightKind
  | TokenWeight
  | RoleWeight
  deriving DecidableEq

/-- policy.rs VotePolicy. -/
structure VotePolicy where
  weight_kind : WeightKind
  quorum : Nat
  threshold : WeightOrRatio
  deriving DecidableEq

/-- policy.rs impl Default for VotePolicy. -/
def VotePolicy.default : VotePolicy :=
  { weight_kind := WeightKind.RoleWeight
    quorum := 0
    threshold := WeightOrRatio.Ratio 1 2 }

/-- bounties.rs Bounty. -/
structure Bounty where
  description : String
  token : AccountId
  amount : Nat
  times : Nat
  max_deadline : Nat
  deriving DecidableEq

/-- bounties.rs BountyClaim. -/
structure BountyClaim where
  bounty_id : Nat
  start_time : Nat
  deadline : Nat
  completed : Bool
  deriving DecidableEq

/-- proposals.rs ActionCall. -/
structure ActionCall where
  method_name : String
  args : List Nat
  deposit : Nat
  gas : Nat
  deriving DecidableEq

/-- proposals.rs ProposalKind. -/
structure ProposalKind where
  name : String
  required_instrs : List Nat
  vote_policy : VotePolicy
  deriving DecidableEq

/-- policy.rs Policy. The source stores it wrapped in VersionedPolicy; the
wrapper only matters for storage migration, so the Current case is stored
directly and policy.get().unwrap().to_policy() is modelled as field access. -/
structure Policy where
  proposal_kinds : List ProposalKind
  roles : List RolePermission
  default_vote_policy : VotePolicy
  proposal_bond : Nat
  proposal_period : Nat
  bounty_bond : Nat
  bounty_forgiveness_period : Nat
  deriving DecidableEq

/-- proposals.rs Instruction. The ChangePolicy payload is stored as the
unwrapped Policy (see the Policy doc comment); hashes are opaque numbers. -/
inductive Instruction
  | ChangeConfig (config : Config)
  | ChangePolicy (policy : Policy)
  | AddMemberToRole (member_id : AccountId) (role : String)
  | RemoveMemberFromRole (member_id : AccountId) (role : String)
  | FunctionCall (receiver_id : AccountId) (actions : List ActionCall)
  | UpgradeSelf (hash : Nat)
  | UpgradeRemote (receiver_id : AccountId) (method_name : String) (hash : Nat)
  | Transfer (token_id : AccountId) (receiver_id : AccountId) (amount : Nat)
  | SetStakingContract (staking_id : AccountId)
  | AddBounty (bounty : Bounty)
  | BountyDone (bounty_id : Nat) (receiver_id : AccountId)
  | Vote
  deriving DecidableEq

/-- proposals.rs Instruction::to_enum, the stable numeric tag. -/
def Instruction.to_enum : Instruction → Nat
  | Instruction.ChangeConfig _ => 0
  | Instruction.ChangePolicy _ => 1
  | Instruction.AddMemberToRole _ _ => 2
  | Instruction.RemoveMemberFromRole _ _ => 3
  | Instruction.FunctionCall _ _ => 4
  | Instruction.UpgradeSelf _ => 5
  | Instruction.UpgradeRemote _ _ _ => 6
  | Instruction.Transfer _ _ _ => 7
  | Instruction.SetStakingContract _ => 8
  | Instruction.AddBounty _ => 9
  | Instruction.BountyDone _ _ => 10
  | Instruction.Vote => 11

/-- proposals.rs ProposalKind::match_proposal: every required instruction tag
occurs among the tags of the given instructions. -/
def ProposalKind.match_proposal (k : ProposalKind) (instructions : List Instruction) : Bool :=
  let instruction_kind := instructions.map Instruction.to_enum
  k.required_instrs.all (fun instr => instruction_kind.contains instr)

/-- proposals.rs ProposalStatus. -/
inductive ProposalStatus
  | InProgress
  | Approved (version : Nat)
  | Rejected
  | Expired
  | Moved
  deriving DecidableEq

/-- proposals.rs Vote: choice 0 is reject, choice v+1 approves version v. -/
structure Vote where
  choice : Nat
  weight : Nat
  deriving DecidableEq

/-- proposals.rs RemoveVote. -/
structure RemoveVote where
  account_id : AccountId
  version : Nat
  deriving DecidableEq

/-- proposals.rs ProposalVersion. -/
structure ProposalVersion where
  proposer : AccountId
  description : String
  instructions : List Instruction
  deriving DecidableEq

/-- proposals.rs Proposal (the VersionedProposal::Default wrapper is elided,
as for Policy). -/
structure Proposal where
  kind : String
  versions : List ProposalVersion
  status : ProposalStatus
  approve_count : List Nat
  reject_count : Nat
  remove_count : List Nat
  remove_flag : List Bool
  votes : List (AccountId × Vote)
  remove_votes : List RemoveVote
  submission_time : Nat
  deriving DecidableEq

/-- Effects emitted through NEAR promises and the fungible-token interface. -/
inductive Effect
  | transfer (receiver_id : AccountId) (amount : Nat)
  | ftTransfer (token_id : AccountId) (receiver_id : AccountId) (amount : Nat)
  | functionCall (receiver_id : AccountId) (actions : List ActionCall)
  | upgradeSelf (hash : Nat)
  | upgradeRemote (receiver_id : AccountId) (method_name : String) (hash : Nat)
  deriving DecidableEq

/-- Contract state (lib.rs Global state as described in section 3 of the
spec; the fields used by policy.rs, proposals.rs and bounties.rs). -/
structure Contract where
  config : Config
  policy : Policy
  staking_id : Option AccountId
  total_delegation_amount : Nat
  proposals : List (Nat × Proposal)
  bounties : List (Nat × Bounty)
  bounty_claims_count : List (Nat × Nat)
  bounty_claimers : List (AccountId × List BountyClaim)
  last_proposal_id : Nat
  last_bounty_id : Nat
  deriving DecidableEq

/-- Host environment of one request: predecessor account, block timestamp in
nanoseconds, attached deposit, and the voting-weight oracle get_user_weight
(delegation code absent from the sources; spec section 9 describes it as the
oracle fn user_weight(account) -> balance). -/
structure Env where
  predecessor_account_id : AccountId
  block_timestamp : Nat
  attached_deposit : Nat
  user_weight : AccountId → Nat

/-- policy.rs Policy::add_member_to_role. Failures are logged and ignored in
the source (env::log); the log lines are dropped here. -/
def Policy.add_member_to_role (pol : Policy) (role : String) (member_id : AccountId) : Policy :=
  match (pol.roles.findIdx? (fun r => r.name == role)) with
  | some i =>
    match pol.roles.get? i with
    | some r =>
      match r.kind.add_member_to_group member_id with
      | Except.ok k => { pol with roles := pol.roles.set i { r with kind := k } }
      | Except.error _ => pol
    | none => pol
  | none => pol

/-- policy.rs Policy::remove_member_from_role, same logging convention. -/
def Policy.remove_member_from_role (pol : Policy) (role : String) (member_id : AccountId) : Policy :=
  match (pol.roles.findIdx? (fun r => r.name == role)) with
  | some i =>
    match pol.roles.get? i with
    | some r =>
      match r.kind.remove_member_from_group member_id with
      | Except.ok k => { pol with roles := pol.roles.set i { r with kind := k } }
      | Except.error _ => pol
    | none => pol
  | none => pol

/-- policy.rs Policy::get_user_roles: the name-keyed map of matching roles. -/
def Policy.get_user_roles (pol : Policy) (user : UserInfo) : List (String × List String) :=
  pol.roles.foldl
    (fun m role => if role.kind.match_user user then insertL m role.name role.permissions else m)
    []

/-- policy.rs Policy::can_execute_action. -/
def Policy.can_execute_action (pol : Policy) (user : UserInfo) (proposal_kind : String)
    (action : Action) : Bool :=
  (pol.get_user_roles user).any (fun kv =>
    kv.2.contains (proposal_kind ++ ":" ++ action.to_label)
    || kv.2.contains (proposal_kind ++ ":*")
    || kv.2.contains ("*:" ++ action.to_label)
    || kv.2.contains ("*:*"))

/-- policy.rs Policy::get_vote_policy: linear search by kind name. -/
def Policy.get_vote_policy (pol : Policy) (proposal_kind : String) : Option VotePolicy :=
  (pol.proposal_kinds.find? (fun p => p.name == proposal_kind)).map (fun p => p.vote_policy)

/-- policy.rs Policy::match_proposal_kind: name of the first matching kind,
or the empty string. -/
def Policy.match_proposal_kind (pol : Policy) (instructions : List Instruction) : String :=
  match pol.proposal_kinds.find? (fun kind => kind.match_proposal instructions) with
  | some kind => kind.name
  | none => ""

/-- policy.rs Policy::get_threshold, RoleWeight branch: total size of roles
whose permissions grant VoteApprove on this kind; a matching non-Group role
aborts with ERR_UNSUPPORTED_ROLE. -/
def Policy.role_weight_total (pol : Policy) (proposal_kind : String) : Except String Nat :=
  pol.roles.foldlM
    (fun total role =>
      if role.permissions.contains (proposal_kind ++ ":*")
          || role.permissions.contains ("*:" ++ (Action.VoteApprove 0).to_label)
          || role.permissions.contains (proposal_kind ++ ":" ++ (Action.VoteApprove 0).to_label) then
        match role.kind.get_role_size with
        | some n => Except.ok (total + n)
        | none => Except.error "ERR_UNSUPPORTED_ROLE"
      else Except.ok total)
    0

/-- policy.rs Policy::get_threshold. -/
def Policy.get_threshold (pol : Policy) (vote_policy : VotePolicy) (total_supply : Nat)
    (proposal_kind : String) : Except String Nat := do
  let base ←
    match vote_policy.weight_kind with
    | WeightKind.TokenWeight => Except.ok (vote_policy.threshold.to_weight total_supply)
    | WeightKind.RoleWeight => do
        let total ← pol.role_weight_total proposal_kind
        Except.ok (vote_policy.threshold.to_weight total)
  Except.ok (max vote_policy.quorum base)

/-- policy.rs Policy::proposal_status, with env::block_timestamp passed as
the now argument. -/
def Policy.proposal_status (pol : Policy) (proposal : Proposal) (total_supply : Nat)
    (now : Nat) : Except String ProposalStatus := do
  let _ ← ensure (proposal.status = ProposalStatus.InProgress) "ERR_PROPOSAL_NOT_IN_PROGRESS"
  if proposal.submission_time + pol.proposal_period < now then
    Except.ok ProposalStatus.Expired
  else do
    let vote_policy := (pol.get_vote_policy proposal.kind).getD pol.default_vote_policy
    let threshold ← pol.get_threshold vote_policy total_supply proposal.kind
    if proposal.reject_count > threshold then
      Except.ok ProposalStatus.Rejected
    else
      match proposal.approve_count.findIdx? (fun total => decide (threshold ≤ total)) with
      | some version => Except.ok (ProposalStatus.Approved version)
      | none => Except.ok proposal.status

/-- proposals.rs Proposal::update_votes, lines 211 to 251, embedded with its
exact tally arithmetic: the reversal of a prior approve vote ADDS the prior
weight to approve_count (line 227, += in the source), and a fresh reject
vote SUBTRACTS the weight from reject_count (line 237, -= in the source).
The remove_flag assert on line 233 indexes remove_flag at
(vote.choice - 1) as usize unconditionally, so with choice = 0 the u8
subtraction underflows and the call aborts. The vote_policy parameter is
unused, as in the source. -/
def Proposal.update_votes (p : Proposal) (account_id : AccountId) (vote : Vote)
    (_vote_policy : VotePolicy) (threshold : Nat) :
    Except String (Proposal × ProposalStatus) := do
  let old_vote := lookupL p.votes account_id
  let p1 : Proposal := { p with votes := insertL p.votes account_id vote }
  let (p2, weight) ←
    match old_vote with
    | none => Except.ok (p1, vote.weight)
    | some v =>
      if v.choice = 0 then
        if v.weight ≤ p1.reject_count then
          Except.ok ({ p1 with reject_count := p1.reject_count - v.weight }, v.weight)
        else Except.error "attempt to subtract with overflow"
      else
        match p1.approve_count.get? (v.choice - 1) with
        | some a =>
          Except.ok ({ p1 with approve_count := p1.approve_count.set (v.choice - 1) (a + v.weight) }, v.weight)
        | none => Except.error "index out of bounds"
  if vote.choice = 0 then
    Except.error "attempt to subtract with overflow"
  else
    match p2.remove_flag.get? (vote.choice - 1) with
    | none => Except.error "index out of bounds"
    | some flag => do
      let _ ← ensure (flag = false) "ERR_PROPOSAL_REMOVED"
      let p3 ←
        if vote.choice = 0 then
          if weight ≤ p2.reject_count then
            Except.ok { p2 with reject_count := p2.reject_count - weight }
          else Except.error "attempt to subtract with overflow"
        else
          match p2.approve_count.get? (vote.choice - 1) with
          | some a =>
            Except.ok { p2 with approve_count := p2.approve_count.set (vote.choice - 1) (a + weight) }
          | none => Except.error "index out of bounds"
      if threshold ≤ p3.reject_count then
        Except.ok (p3, ProposalStatus.Rejected)
      else
        match p3.approve_count.get? (vote.choice - 1) with
        | some a =>
          if threshold ≤ a then
            Except.ok (p3, ProposalStatus.Approved (vote.choice - 1))
          else Except.ok (p3, ProposalStatus.InProgress)
        | none => Except.error "index out of bounds"

/-- proposals.rs Proposal::update_remove_votes. Returns the updated proposal
and the flag result; versions.len() is cast to u8 in the source, modelled as
mod 256. -/
def Proposal.update_remove_votes (p : Proposal) (vote : RemoveVote) (weight : Nat)
    (threshold : Nat) : Except String (Proposal × Bool) := do
  let _ ← ensure (decide (vote.version < p.versions.length % 256)) "ERR_NO_PROPOSAL_VERSION"
  let _ ← ensure (!(p.remove_votes.contains vote)) "ERR_ALREADY_VOTED"
  match p.remove_count.get? vote.version with
  | none => Except.error "index out of bounds"
  | some rc =>
    let p1 : Proposal := { p with remove_count := p.remove_count.set vote.version (rc + weight) }
    if threshold ≤ rc + weight then
      Except.ok ({ p1 with remove_votes := p1.remove_votes ++ [vote] }, true)
    else
      Except.ok ({ p1 with remove_votes := p1.remove_votes ++ [vote] }, false)

/-- proposals.rs Proposal::create_vote; versions.len() as u8 is modelled as
mod 256. -/
def Proposal.create_vote (p : Proposal) (vote_policy : VotePolicy) (choice : Nat)
    (user_weight : Nat) : Except String Vote := do
  let _ ← ensure (decide (choice ≤ p.versions.length % 256)) "ERR_NO_PROPOSAL_VERSION"
  let weight :=
    match vote_policy.weight_kind with
    | WeightKind.TokenWeight => user_weight
    | WeightKind.RoleWeight => 1
  Except.ok { choice := choice, weight := weight }

/-- proposals.rs Contract::internal_user_info. -/
def Contract.internal_user_info (env : Env) : UserInfo :=
  { account_id := env.predecessor_account_id
    amount := env.user_weight env.predecessor_account_id }

/-- proposals.rs Contract::internal_payout: a native transfer for the base
token, an ft_transfer call otherwise. -/
def Contract.internal_payout (token_id : AccountId) (receiver_id : AccountId)
    (amount : Nat) : List Effect :=
  if token_id = BASE_TOKEN then [Effect.transfer receiver_id amount]
  else [Effect.ftTransfer token_id receiver_id amount]

/-- bounties.rs Contract::internal_add_bounty. -/
def Contract.internal_add_bounty (c : Contract) (bounty : Bounty) : Contract × Nat :=
  let id := c.last_bounty_id
  ({ c with bounties := insertL c.bounties id bounty, last_bounty_id := c.last_bounty_id + 1 }, id)

/-- bounties.rs Contract::internal_find_claim: index of the FIRST claim in
the list with the given bounty id. -/
def Contract.internal_find_claim (bounty_id : Nat) : List BountyClaim → Option Nat
  | [] => none
  | cl :: rest =>
    if cl.bounty_id = bounty_id then some 0
    else (Contract.internal_find_claim bounty_id rest).map (fun i => i + 1)

/-- bounties.rs Contract::internal_get_claims. -/
def Contract.internal_get_claims (c : Contract) (id : Nat) (sender_id : AccountId) :
    Except String (List BountyClaim × Nat) := do
  match lookupL c.bounty_claimers sender_id with
  | none => Except.error "ERR_NO_BOUNTY_CLAIMS"
  | some claims =>
    match Contract.internal_find_claim id claims with
    | none => Except.error "ERR_NO_BOUNTY_CLAIM"
    | some claim_idx => Except.ok (claims, claim_idx)

/-- bounties.rs Contract::internal_remove_claim, lines 135 to 145. Note the
source persists the shortened list under env::predecessor_account_id(), and
removes the PREDECESSOR entry when the list becomes empty, regardless of
which account owned the claims that were passed in. The count access
unwraps (abort when absent) and the u32 decrement aborts on underflow. -/
def Contract.internal_remove_claim (env : Env) (c : Contract) (id : Nat)
    (claims : List BountyClaim) (claim_idx : Nat) : Except String Contract := do
  let claims1 := claims.eraseIdx claim_idx
  let claimers :=
    if claims1.isEmpty then removeL c.bounty_claimers env.predecessor_account_id
    else insertL c.bounty_claimers env.predecessor_account_id claims1
  match lookupL c.bounty_claims_count id with
  | none => Except.error "called Option::unwrap on a None value"
  | some cnt =>
    if cnt = 0 then Except.error "attempt to subtract with overflow"
    else
      Except.ok { c with
        bounty_claimers := claimers
        bounty_claims_count := insertL c.bounty_claims_count id (cnt - 1) }

/-- bounties.rs Contract::internal_execute_bounty_payout, lines 66 to 87: on
success the claim is removed, the payout emitted, and the bounty is DELETED
only when times is zero before the decrement, otherwise persisted with
times decremented; on failure only the claim is removed. -/
def Contract.internal_execute_bounty_payout (env : Env) (c : Contract) (id : Nat)
    (receiver_id : AccountId) (success : Bool) : Except String (Contract × List Effect) := do
  match lookupL c.bounties id with
  | none => Except.error "ERR_NO_BOUNTY"
  | some bounty => do
    let (claims, claim_idx) ← c.internal_get_claims id receiver_id
    let c1 ← Contract.internal_remove_claim env c id claims claim_idx
    if success then
      let res := Contract.internal_payout bounty.token receiver_id bounty.amount
      if bounty.times = 0 then
        Except.ok ({ c1 with bounties := removeL c1.bounties id }, res)
      else
        Except.ok ({ c1 with
          bounties := insertL c1.bounties id { bounty with times := bounty.times - 1 } }, res)
    else
      Except.ok (c1, [])

/-- proposals.rs Contract::internal_execute_proposal: refund the bond to
every proposer of every version, then interpret the instructions in order.
AddMemberToRole and RemoveMemberFromRole mutate a clone of the policy value
that was passed in, exactly as the source does. -/
def Contract.internal_execute_proposal (env : Env) (c : Contract) (policy : Policy)
    (proposal : Proposal) (version : ProposalVersion) : Except String (Contract × List Effect) := do
  let refunds := proposal.versions.map (fun p => Effect.transfer p.proposer policy.proposal_bond)
  version.instructions.foldlM
    (fun (acc : Contract × List Effect) instr => do
      let (c, effs) := acc
      match instr with
      | Instruction.ChangeConfig config => Except.ok ({ c with config := config }, effs)
      | Instruction.ChangePolicy policy => Except.ok ({ c with policy := policy }, effs)
      | Instruction.AddMemberToRole member_id role =>
        Except.ok ({ c with policy := policy.add_member_to_role role member_id }, effs)
      | Instruction.RemoveMemberFromRole member_id role =>
        Except.ok ({ c with policy := policy.remove_member_from_role role member_id }, effs)
      | Instruction.FunctionCall receiver_id actions =>
        Except.ok (c, effs ++ [Effect.functionCall receiver_id actions])
      | Instruction.UpgradeSelf hash => Except.ok (c, effs ++ [Effect.upgradeSelf hash])
      | Instruction.UpgradeRemote receiver_id method_name hash =>
        Except.ok (c, effs ++ [Effect.upgradeRemote receiver_id method_name hash])
      | Instruction.Transfer token_id receiver_id amount =>
        Except.ok (c, effs ++ Contract.internal_payout token_id receiver_id amount)
      | Instruction.SetStakingContract staking_id => do
        let _ ← ensure c.staking_id.isNone "ERR_INVALID_STAKING_CHANGE"
        Except.ok ({ c with staking_id := some staking_id }, effs)
      | Instruction.AddBounty bounty =>
        Except.ok ((c.internal_add_bounty bounty).1, effs)
      | Instruction.BountyDone bounty_id receiver_id => do
        let (c1, effs1) ← Contract.internal_execute_bounty_payout env c bounty_id receiver_id true
        Except.ok (c1, effs ++ effs1)
      | Instruction.Vote => Except.ok (c, effs))
    (c, refunds)

/-- proposals.rs Contract::internal_reject_proposal: refund the bond to
every proposer and run the failed bounty-payout path for every BountyDone
instruction of every version. -/
def Contract.internal_reject_proposal (env : Env) (c : Contract) (policy : Policy)
    (proposal : Proposal) : Except String (Contract × List Effect) :=
  proposal.versions.foldlM
    (fun (acc : Contract × List Effect) p => do
      let (c, effs) := acc
      let effs := effs ++ [Effect.transfer p.proposer policy.proposal_bond]
      p.instructions.foldlM
        (fun (acc2 : Contract × List Effect) instr =>
          match instr with
          | Instruction.BountyDone bounty_id receiver_id => do
            let (c2, effs2) ←
              Contract.internal_execute_bounty_payout env acc2.1 bounty_id receiver_id false
            Except.ok (c2, acc2.2 ++ effs2)
          | _ => Except.ok acc2)
        (c, effs))
    (c, [])

/-- proposals.rs Contract::is_valid_instruction_set: with more than one
instruction, the standalone-only instructions are forbidden. -/
def Contract.is_valid_instruction_set (instructions : List Instruction) : Bool :=
  if instructions.length > 1 then
    instructions.all (fun instr =>
      match instr with
      | Instruction.SetStakingContract _ => false
      | Instruction.UpgradeSelf _ => false
      | Instruction.Vote => false
      | Instruction.BountyDone _ _ => false
      | _ => true)
  else true

/-- proposals.rs Contract::internal_check_proposal, lines 707 to 739. The
permission checked is Action::AddProposal, for counter proposals too. -/
def Contract.internal_check_proposal (env : Env) (c : Contract)
    (instructions : List Instruction) : Except String String := do
  let policy := c.policy
  let _ ← ensure (decide (policy.proposal_bond ≤ env.attached_deposit)) "ERR_MIN_BOND"
  let _ ← ensure (decide (instructions.length > 0)) "ERR_EMPTY_INSTRUCTION_SET"
  let _ ← ensure (Contract.is_valid_instruction_set instructions) "ERR_INVALID_INSTRUCTION_SET"
  let _ ←
    match instructions.get? 0 with
    | some (Instruction.SetStakingContract _) =>
      ensure c.staking_id.isNone "ERR_STAKING_CONTRACT_CANT_CHANGE"
    | _ => Except.ok ()
  let kind := policy.match_proposal_kind instructions
  let _ ← ensure (policy.can_execute_action (Contract.internal_user_info env) kind
    Action.AddProposal) "ERR_PERMISSION_DENIED"
  Except.ok kind

/-- proposals.rs Contract::propose. -/
def Contract.propose (env : Env) (c : Contract) (description : String)
    (instructions : List Instruction) : Except String (Contract × Nat) := do
  let kind ← Contract.internal_check_proposal env c instructions
  let p : Proposal :=
    { kind := kind
      versions := [{ proposer := env.predecessor_account_id
                     description := description
                     instructions := instructions }]
      status := ProposalStatus.InProgress
      approve_count := [0]
      reject_count := 0
      remove_count := [0]
      remove_flag := [false]
      votes := []
      remove_votes := []
      submission_time := env.block_timestamp }
  let id := c.last_proposal_id
  Except.ok ({ c with
    proposals := insertL c.proposals id p
    last_proposal_id := c.last_proposal_id + 1 }, id)

/-- proposals.rs Contract::counter_propose: checks the new instructions with
internal_check_proposal (hence against Action::AddProposal), requires the
same kind, appends a version and zero-extends the per-version arrays. -/
def Contract.counter_propose (env : Env) (c : Contract) (id : Nat) (description : String)
    (instructions : List Instruction) : Except String (Contract × Nat) := do
  match lookupL c.proposals id with
  | none => Except.error "ERR_NO_PROPOSAL"
  | some p => do
    let kind ← Contract.internal_check_proposal env c instructions
    let _ ← ensure (kind == p.kind) "ERR_DIFFERENT_PROPOSAL_KIND"
    let p1 : Proposal := { p with
      versions := p.versions ++ [{ proposer := env.predecessor_account_id
                                   description := description
                                   instructions := instructions }]
      approve_count := p.approve_count ++ [0]
      remove_count := p.remove_count ++ [0]
      remove_flag := p.remove_flag ++ [false] }
    let version := (p1.versions.length - 1) % 256
    Except.ok ({ c with proposals := insertL c.proposals id p1 }, version)

/-- proposals.rs Contract::handle_vote, lines 648 to 705: permission check
(VoteReject for choice 0, VoteApprove otherwise), status check, vote
creation, threshold, tally update via update_votes, then execution on
Approved and the reject path on Rejected, and finally the proposal is
persisted. -/
def Contract.handle_vote (env : Env) (c : Contract) (id : Nat) (choice : Nat) :
    Except String (Contract × List Effect) := do
  match lookupL c.proposals id with
  | none => Except.error "ERR_NO_PROPOSAL"
  | some proposal => do
    let policy := c.policy
    let _ ← ensure (decide (choice ≤ proposal.versions.length % 256)) "ERR_INVALID_CHOICE"
    let action := if choice = 0 then Action.VoteReject else Action.VoteApprove 0
    let _ ← ensure (policy.can_execute_action (Contract.internal_user_info env)
      proposal.kind action) "ERR_PERMISSION_DENIED"
    let _ ← ensure (proposal.status = ProposalStatus.InProgress) "ERR_PROPOSAL_NOT_IN_PROGRESS"
    let vote_policy := (policy.get_vote_policy proposal.kind).getD policy.default_vote_policy
    let sender_id := env.predecessor_account_id
    let vote ← proposal.create_vote vote_policy choice (env.user_weight sender_id)
    let threshold ← policy.get_threshold vote_policy c.total_delegation_amount proposal.kind
    let (p1, status) ← proposal.update_votes sender_id vote vote_policy threshold
    let p1 : Proposal := { p1 with status := status }
    let (c1, effs) ←
      match status with
      | ProposalStatus.Approved version =>
        match p1.versions.get? version with
        | some v => Contract.internal_execute_proposal env c policy p1 v
        | none => Except.error "index out of bounds"
      | ProposalStatus.Rejected => Contract.internal_reject_proposal env c policy p1
      | _ => Except.ok (c, [])
    Except.ok ({ c1 with proposals := insertL c1.proposals id p1 }, effs)

/-- proposals.rs Contract::approve: handle_vote with choice version + 1. -/
def Contract.approve (env : Env) (c : Contract) (id : Nat) (version : Nat) :
    Except String (Contract × List Effect) :=
  Contract.handle_vote env c id (version + 1)

/-- proposals.rs Contract::reject: handle_vote with choice 0. -/
def Contract.reject (env : Env) (c : Contract) (id : Nat) :
    Except String (Contract × List Effect) :=
  Contract.handle_vote env c id 0

/-- proposals.rs Contract::withdraw, lines 491 to 524. -/
def Contract.withdraw (env : Env) (c : Contract) (id : Nat) (version : Nat) :
    Except String Contract := do
  match lookupL c.proposals id with
  | none => Except.error "ERR_NO_PROPOSAL"
  | some proposal => do
    let policy := c.policy
    let _ ← ensure (policy.can_execute_action (Contract.internal_user_info env)
      proposal.kind Action.WithdrawProposal) "ERR_PERMISSION_DENIED"
    let _ ← ensure (proposal.status = ProposalStatus.InProgress) "ERR_PROPOSAL_NOT_IN_PROGRESS"
    let _ ← ensure (decide (version < proposal.versions.length % 256)) "ERR_NO_PROPOSAL_VERSION"
    match proposal.remove_flag.get? version with
    | none => Except.error "index out of bounds"
    | some flag => do
      let _ ← ensure (flag = false) "ERR_ALREADY_REMOVED"
      match proposal.versions.get? version with
      | none => Except.error "index out of bounds"
      | some pv => do
        let _ ← ensure (pv.proposer == env.predecessor_account_id) "ERR_UNAUTHORIZED_WITHDRAW"
        match proposal.approve_count.get? version, proposal.remove_count.get? version with
        | some ac, some rc => do
          let _ ← ensure (ac == 0) "ERR_VOTING_BEGUN"
          let _ ← ensure (rc == 0) "ERR_VOTING_BEGUN"
          let p1 : Proposal := { proposal with remove_flag := proposal.remove_flag.set version true }
          Except.ok { c with proposals := insertL c.proposals id p1 }
        | _, _ => Except.error "index out of bounds"

/-- proposals.rs Contract::veto, lines 526 to 562: after update_remove_votes
the source assigns its boolean result to remove_flag[version]
unconditionally. -/
def Contract.veto (env : Env) (c : Contract) (id : Nat) (version : Nat) :
    Except String Contract := do
  match lookupL c.proposals id with
  | none => Except.error "ERR_NO_PROPOSAL"
  | some proposal => do
    let policy := c.policy
    let _ ← ensure (policy.can_execute_action (Contract.internal_user_info env)
      proposal.kind Action.VoteRemove) "ERR_PERMISSION_DENIED"
    let _ ← ensure (proposal.status = ProposalStatus.InProgress) "ERR_PROPOSAL_NOT_IN_PROGRESS"
    let vote_policy := (policy.get_vote_policy proposal.kind).getD policy.default_vote_policy
    let sender_id := env.predecessor_account_id
    let threshold ← policy.get_threshold vote_policy c.total_delegation_amount proposal.kind
    let weight := env.user_weight sender_id
    let removeVote : RemoveVote := { account_id := sender_id, version := version }
    let (p1, flag) ← proposal.update_remove_votes removeVote weight threshold
    match p1.remove_flag.get? version with
    | none => Except.error "index out of bounds"
    | some _ => do
      let p2 : Proposal := { p1 with remove_flag := p1.remove_flag.set version flag }
      Except.ok { c with proposals := insertL c.proposals id p2 }

/-- proposals.rs Contract::finalize, lines 584 to 610: recomputes the status
and runs the reject path, but does NOT insert the proposal back into
storage, so the Expired status is never persisted. -/
def Contract.finalize (env : Env) (c : Contract) (id : Nat) :
    Except String (Contract × List Effect) := do
  match lookupL c.proposals id with
  | none => Except.error "ERR_NO_PROPOSAL"
  | some proposal => do
    let policy := c.policy
    let _ ← ensure (policy.can_execute_action (Contract.internal_user_info env)
      proposal.kind Action.Finalize) "ERR_PERMISSION_DENIED"
    let _ ← ensure (proposal.status = ProposalStatus.InProgress) "ERR_PROPOSAL_NOT_IN_PROGRESS"
    let status ← policy.proposal_status proposal c.total_delegation_amount env.block_timestamp
    let p1 : Proposal := { proposal with status := status }
    let _ ← ensure (p1.status = ProposalStatus.Expired) "ERR_PROPOSAL_NOT_EXPIRED"
    Contract.internal_reject_proposal env c policy p1

/-- bounties.rs Contract::bounty_claim, lines 105 to 132. -/
def Contract.bounty_claim (env : Env) (c : Contract) (id : Nat) (deadline : Nat) :
    Except String Contract := do
  match lookupL c.bounties id with
  | none => Except.error "ERR_NO_BOUNTY"
  | some bounty => do
    let policy := c.policy
    let _ ← ensure (env.attached_deposit == policy.bounty_bond) "ERR_BOUNTY_WRONG_BOND"
    let claims_count := (lookupL c.bounty_claims_count id).getD 0
    let _ ← ensure (decide (claims_count < bounty.times)) "ERR_BOUNTY_ALL_CLAIMED"
    let _ ← ensure (decide (deadline ≤ bounty.max_deadline)) "ERR_BOUNTY_WRONG_DEADLINE"
    let claims := (lookupL c.bounty_claimers env.predecessor_account_id).getD []
    let claims := claims ++ [{ bounty_id := id
                               start_time := env.block_timestamp
                               deadline := deadline
                               completed := false }]
    Except.ok { c with
      bounty_claims_count := insertL c.bounty_claims_count id (claims_count + 1)
      bounty_claimers := insertL c.bounty_claimers env.predecessor_account_id claims }

/-- bounties.rs Contract::bounty_done, lines 161 to 185. -/
def Contract.bounty_done (env : Env) (c : Contract) (id : Nat)
    (account_id : Option AccountId) (description : String) :
    Except String (Contract × List Effect) := do
  let sender_id := account_id.getD env.predecessor_account_id
  let (claims, claim_idx) ← c.internal_get_claims id sender_id
  match claims.get? claim_idx with
  | none => Except.error "index out of bounds"
  | some claim => do
    let _ ← ensure (claim.completed = false) "ERR_BOUNTY_CLAIM_COMPLETED"
    if claim.start_time + claim.deadline < env.block_timestamp then do
      let c1 ← Contract.internal_remove_claim env c id claims claim_idx
      Except.ok (c1, [])
    else do
      let _ ← ensure (sender_id == env.predecessor_account_id) "ERR_BOUNTY_DONE_MUST_BE_SELF"
      let (c1, _) ← Contract.propose env c description
        [Instruction.BountyDone id sender_id]
      let claims1 := claims.set claim_idx { claim with completed := true }
      Except.ok ({ c1 with bounty_claimers := insertL c1.bounty_claimers sender_id claims1 }, [])

/-- bounties.rs Contract::bounty_giveup, lines 188 to 204: refund the bond
when still inside the forgiveness period, then remove the claim. The u64
subtraction now - start_time aborts if the clock reads earlier than the
claim start. -/
def Contract.bounty_giveup (env : Env) (c : Contract) (id : Nat) :
    Except String (Contract × List Effect) := do
  let policy := c.policy
  let (claims, claim_idx) ← c.internal_get_claims id env.predecessor_account_id
  match claims.get? claim_idx with
  | none => Except.error "index out of bounds"
  | some claim =>
    if env.block_timestamp < claim.start_time then
      Except.error "attempt to subtract with overflow"
    else do
      let result :=
        if policy.bounty_forgiveness_period < env.block_timestamp - claim.start_time then
          ([] : List Effect)
        else [Effect.transfer env.predecessor_account_id policy.bounty_bond]
      let c1 ← Contract.internal_remove_claim env c id claims claim_idx
      Except.ok (c1, result)

/-- Observer for invariant P2 / I1: number of claims recorded on the given
bounty across the claim lists of all claimers. -/
def Contract.claims_on_bounty (c : Contract) (id : Nat) : Nat :=
  (c.bounty_claimers.map (fun kv => (kv.2.filter (fun cl => cl.bounty_id == id)).length)).sum

theorem ok_bind {α β : Type} (a : α) (f : α → Except String β) :
    (Except.ok a >>= f) = f a := rfl

theorem error_bind {α β : Type} (e : String) (f : α → Except String β) :
    ((Except.error e : Except String α) >>= f) = Except.error e := rfl

theorem ebind_ok {α β : Type} (a : α) (f : α → Except String β) :
    Except.bind (Except.ok a) f = f a := rfl

theorem emap_ok {α β : Type} (f : α → β) (a : α) :
    Except.map f (Except.ok a : Except String α) = Except.ok (f a) := rfl

theorem lookupL_insertL_self {α β : Type} [DecidableEq α] (m : List (α × β)) (k : α) (v : β) :
    lookupL (insertL m k v) k = some v := by
  induction m with
  | nil => simp [insertL, lookupL]
  | cons kv rest ih =>
    obtain ⟨a, b⟩ := kv
    by_cases h : a = k
    · simp [insertL, lookupL, h]
    · simp [insertL, lookupL, h, ih]

theorem lookupL_removeL_self {α β : Type} [DecidableEq α] (m : List (α × β)) (k : α) :
    lookupL (removeL m k) k = none := by
  induction m with
  | nil => simp [removeL, lookupL]
  | cons kv rest ih =>
    obtain ⟨a, b⟩ := kv
    by_cases h : a = k
    · simp [removeL, lookupL, h, ih]
    · simp [removeL, lookupL, h, ih]

theorem internal_find_claim_append {L : List BountyClaim} {id : Nat} (a : BountyClaim)
    (hL : ∀ cl ∈ L, cl.bounty_id ≠ id) (ha : a.bounty_id = id) :
    Contract.internal_find_claim id (L ++ [a]) = some L.length := by
  induction L with
  | nil => simp [Contract.internal_find_claim, ha]
  | cons cl rest ih =>
    have h1 : cl.bounty_id ≠ id := hL cl (by simp)
    have h2 : ∀ x ∈ rest, x.bounty_id ≠ id := fun x hx => hL x (by simp [hx])
    simp [Contract.internal_find_claim, h1, ih h2]

theorem eraseIdx_append_length {α : Type} (L : List α) (a : α) :
    (L ++ [a]).eraseIdx L.length = L := by
  induction L with
  | nil => simp [List.eraseIdx]
  | cons x rest ih => simp [List.eraseIdx, ih]

theorem get?_append_length {α : Type} (L : List α) (a : α) :
    (L ++ [a]).get? L.length = some a := by
  induction L with
  | nil => simp
  | cons x rest ih => simp [ih]

/-
Concrete fixtures used by the claim theorems: a one-version proposal under a
policy that lets everyone vote, finalize, withdraw and veto, with token
weighted voting (threshold weight 50 of total delegation 100), and a small
bounty registry.
-/

def pvVote : ProposalVersion :=
  { proposer := "alice", description := "d", instructions := [Instruction.Vote] }

def polMain : Policy :=
  { proposal_kinds := []
    roles := [{ name := "all"
                kind := RoleKind.Everyone
                permissions := ["*:AddProposal", "*:VoteApprove", "*:VoteReject",
                                "*:VoteRemove", "*:WithdrawProposal", "*:Finalize"] }]
    default_vote_policy := { weight_kind := WeightKind.TokenWeight
                             quorum := 0
                             threshold := WeightOrRatio.Weight 50 }
    proposal_bond := 5
    proposal_period := 10
    bounty_bond := 3
    bounty_forgiveness_period := 100 }

def propMain : Proposal :=
  { kind := ""
    versions := [pvVote]
    status := ProposalStatus.InProgress
    approve_count := [0]
    reject_count := 0
    remove_count := [0]
    remove_flag := [false]
    votes := []
    remove_votes := []
    submission_time := 0 }

def conMain : Contract :=
  { config := "cfg"
    policy := polMain
    staking_id := none
    total_delegation_amount := 100
    proposals := [(0, propMain)]
    bounties := []
    bounty_claims_count := []
    bounty_claimers := []
    last_proposal_id := 1
    last_bounty_id := 0 }

def envAlice : Env :=
  { predecessor_account_id := "alice"
    block_timestamp := 1
    attached_deposit := 0
    user_weight := fun a => if a = "alice" then 2 else 0 }

def envAliceLate : Env := { envAlice with block_timestamp := 100 }

def envBobW : Env :=
  { predecessor_account_id := "bob"
    block_timestamp := 1
    attached_deposit := 0
    user_weight := fun a => if a = "bob" then 1 else 0 }

def propSwitch : Proposal :=
  { propMain with
    versions := [pvVote, pvVote]
    approve_count := [5, 0]
    remove_count := [0, 0]
    remove_flag := [false, false]
    votes := [("alice", { choice := 1, weight := 5 })] }

def bMain : Bounty :=
  { description := "b", token := "", amount := 10, times := 2, max_deadline := 100 }

def claimMain : BountyClaim :=
  { bounty_id := 0, start_time := 0, deadline := 10, completed := false }

def conClaim : Contract :=
  { conMain with
    bounties := [(0, bMain)]
    bounty_claims_count := [(0, 1)]
    bounty_claimers := [("alice", [claimMain])] }

def envBobLate : Env := { envBobW with block_timestamp := 1000 }

def bTimes1 : Bounty := { bMain with times := 1 }

def conTimes1 : Contract := { conClaim with bounties := [(0, bTimes1)] }

def polBond0 : Policy := { polMain with proposal_bond := 0 }

def conBond0 : Contract := { conMain with policy := polBond0 }

def envBob : Env := { envAlice with predecessor_account_id := "bob" }

def claimOld : BountyClaim :=
  { bounty_id := 0, start_time := 0, deadline := 50, completed := false }

def conOldClaim : Contract :=
  { conMain with
    bounties := [(0, { bMain with times := 5 })]
    bounty_claims_count := [(0, 1)]
    bounty_claimers := [("alice", [claimOld])] }

def envAlice1000 : Env :=
  { envAlice with block_timestamp := 1000, attached_deposit := 3 }

def conBounty : Contract := { conMain with bounties := [(0, bMain)] }

def envA1 : Env := { envAlice with attached_deposit := 3 }

def envA50 : Env := { envAlice with block_timestamp := 50 }

def polGroup : Policy :=
  { polMain with
    roles := [{ name := "council"
                kind := RoleKind.Group ["alice"]
                permissions := ["*:VoteApprove"] }] }

def polNoAdd : Policy :=
  { polMain with
    proposal_bond := 0
    roles := [{ name := "all"
                kind := RoleKind.Everyone
                permissions := ["*:VoteApprove"] }] }

def conNoAdd : Contract := { conMain with policy := polNoAdd }

/-- C1: the claim states that a new vote by an account that previously voted
first SUBTRACTS the prior weight from approve_count[prior_choice - 1], so
the weight contributes to exactly one tally slot. In the code (proposals.rs
line 227) the reversal ADDS the prior weight instead: with a prior approve
vote of weight 5 on version 0 (approve_count [5, 0]), switching the vote to
version 1 yields approve_count [10, 5] and the weight of the account sits
in two slots at once. -/
theorem C1_update_votes_reversal_adds :
    (Proposal.update_votes propSwitch "alice" { choice := 2, weight := 5 }
        VotePolicy.default 100).map
      (fun r => (r.1.approve_count, r.1.reject_count, r.2))
      = Except.ok ([10, 5], 0, ProposalStatus.InProgress) := by
  rfl

/-- C2: the claim states that a reject vote (choice 0) never evaluates the
remove_flag[choice - 1] precondition and therefore succeeds, adding to
reject_count. In the code the assert on proposals.rs line 233 indexes
remove_flag at (vote.choice - 1) as usize unconditionally, so for choice 0
the u8 subtraction underflows and the public reject operation aborts, here
for a caller holding VoteReject permission on a fresh InProgress proposal
(and line 237 would subtract the weight from reject_count, not add it). -/
theorem C2_reject_always_aborts :
    Contract.reject envAlice conMain 0 = Except.error "attempt to subtract with overflow" := by
  rfl

/-- C3: the claim states that a successful finalize persists the Expired
status so a second finalize fails with ERR_PROPOSAL_NOT_IN_PROGRESS and
bonds are refunded once. The code (proposals.rs lines 584 to 610) never
inserts the updated proposal back into storage: finalize on an expired
proposal succeeds, emits the bond refund, and returns the contract state
completely unchanged (stored status still InProgress), so finalizing again
succeeds and emits the refund a second time. -/
theorem C3_finalize_not_persisted :
    Contract.finalize envAliceLate conMain 0 = Except.ok (conMain, [Effect.transfer "alice" 5])
    ∧ (lookupL conMain.proposals 0).map Proposal.status = some ProposalStatus.InProgress
    ∧ (Contract.finalize envAliceLate conMain 0).bind
        (fun r => Contract.finalize envAliceLate r.1 0)
      = Except.ok (conMain, [Effect.transfer "alice" 5]) := by
  exact ⟨rfl, rfl, rfl⟩

/-- C4: the claim states that a vote identical to the previously recorded
vote aborts with ERR_ALREADY_VOTED leaving tallies unchanged. The code has
no such check for ordinary votes (update_votes never raises
ERR_ALREADY_VOTED, contradicting its own doc comment on proposals.rs line
210): approving version 0 twice with weight 2 succeeds both times, and the
buggy reversal inflates the tally from [2] to [6]. -/
theorem C4_double_vote_accepted :
    (Contract.approve envAlice conMain 0 0).map
        (fun r => (lookupL r.1.proposals 0).map Proposal.approve_count)
      = Except.ok (some [2])
    ∧ ((Contract.approve envAlice conMain 0 0).bind
        (fun r => Contract.approve envAlice r.1 0 0)).map
        (fun r => (lookupL r.1.proposals 0).map Proposal.approve_count)
      = Except.ok (some [6]) := by
  exact ⟨rfl, rfl⟩

/-- C6: the claim states that after any public operation the stored claim
count of a bounty equals the number of claims on it across all claim lists.
internal_remove_claim (bounties.rs lines 135 to 145) persists the shortened
claim list under env::predecessor_account_id() rather than the owner of the
claims: when bob calls bounty_done on the expired claim of alice (which the
code explicitly allows, to free the slot), the count drops to 0 while the
claim of alice is still recorded, so the invariant held before the call and
is broken after it. -/
theorem C6_remove_claim_wrong_account :
    ((lookupL conClaim.bounty_claims_count 0).getD 0 = 1
      ∧ Contract.claims_on_bounty conClaim 0 = 1)
    ∧ (Contract.bounty_done envBobLate conClaim 0 (some "alice") "d").map
        (fun r => ((lookupL r.1.bounty_claims_count 0).getD 0, Contract.claims_on_bounty r.1 0))
      = Except.ok (0, 1) := by
  exact ⟨⟨rfl, rfl⟩, rfl⟩

/-- C7 counterexample: the claim states that a successful payout decrements
times and deletes the bounty when times reaches zero after the decrement,
so a bounty with times = 1 is deleted by its one successful payout. In the
code (bounties.rs lines 77 to 82) the deletion test reads times BEFORE the
decrement: paying out a bounty with times = 1 keeps it stored with
times = 0 instead of deleting it. -/
theorem C7_times_one_not_deleted :
    (Contract.internal_execute_bounty_payout envAlice conTimes1 0 "alice" true).map
        (fun r => (lookupL r.1.bounties 0, r.2))
      = Except.ok (some { bTimes1 with times := 0 }, [Effect.transfer "alice" 10]) := by
  rfl

/-- C8 counterexample: the claim states counter_propose succeeds only when
the caller holds a permission matching the AddCounterProposal action label.
counter_propose calls internal_check_proposal (proposals.rs line 463),
which checks Action::AddProposal (line 733): under a policy whose only
permission is AddProposal for everyone, bob, who holds nothing matching
AddCounterProposal, counter-proposes successfully. -/
theorem C8_counter_propose_without_permission :
    (Contract.counter_propose envBob conBond0 0 "cp"
        [Instruction.Transfer "" "bob" 1]).map (fun r => r.2)
      = Except.ok 1
    ∧ Policy.can_execute_action polBond0 { account_id := "bob", amount := 0 } ""
        Action.AddCounterProposal = false := by
  exact ⟨rfl, rfl⟩

/-- C9 counterexample: the claim states that bounty_claim followed by
bounty_giveup by the same caller, with now minus start_time inside the
forgiveness period, refunds the bond and restores the claim list of the
caller. When alice already holds an older claim on the same bounty (start
time 0, now 1000, forgiveness period 100), internal_find_claim locates the
FIRST claim with that bounty id, so giveup inspects and removes the OLD
claim: no refund is emitted although the claim just made is 0 ns old, and
the claim list of alice ends up holding the new claim instead of being
restored to the old one. -/
theorem C9_giveup_removes_first_claim :
    ((Contract.bounty_claim envAlice1000 conOldClaim 0 50).bind
        (fun c1 => (Contract.bounty_giveup envAlice1000 c1 0).map
          (fun r => (r.2, (lookupL r.1.bounty_claims_count 0).getD 0,
                     (lookupL r.1.bounty_claimers "alice").getD []))))
      = Except.ok ([], 1,
          [{ bounty_id := 0, start_time := 1000, deadline := 50, completed := false }])
    ∧ (lookupL conOldClaim.bounty_claimers "alice").getD [] = [claimOld]
    ∧ ([{ bounty_id := 0, start_time := 1000, deadline := 50, completed := false }]
        : List BountyClaim) ≠ [claimOld] := by
  exact ⟨rfl, rfl, by decide⟩

/-- C10: the claim states that once remove_flag[version] is true it stays
true, a later below-threshold veto not resetting it. veto (proposals.rs
line 554) assigns remove_flag[version] the boolean RESULT of
update_remove_votes, which is false whenever the accumulated remove_count
stays below the threshold: after alice withdraws version 0 (flag [true]), a
veto by bob with weight 1 against threshold 50 resets the flag to [false],
re-enabling approve votes on the withdrawn version. -/
theorem C10_veto_resets_remove_flag :
    (Contract.withdraw envAlice conMain 0 0).map
        (fun c1 => (lookupL c1.proposals 0).map Proposal.remove_flag)
      = Except.ok (some [true])
    ∧ ((Contract.withdraw envAlice conMain 0 0).bind
        (fun c1 => (Contract.veto envBobW c1 0 0).map
          (fun c2 => (lookupL c2.proposals 0).map Proposal.remove_flag)))
      = Except.ok (some [false]) := by
  exact ⟨rfl, rfl⟩

/-- C5: the threshold equals max(quorum, resolve(threshold, T)) where the
total T is the token total supply under TokenWeight and the eligible role
total under RoleWeight; resolve(Ratio(n, d), T) = min(T, floor(n T / d) + 1)
and resolve(Weight(w), T) = min(w, T); the threshold is lower-bounded by the
quorum, and for a fixed Ratio policy it is monotone non-decreasing in the
total supply. The denominator-positivity hypotheses mark where the Rust
division would panic. -/
theorem C5_get_threshold_spec :
    (∀ (pol : Policy) (q : Nat) (thr : WeightOrRatio) (T : Nat) (k : String),
      pol.get_threshold { weight_kind := WeightKind.TokenWeight, quorum := q, threshold := thr }
          T k
        = Except.ok (max q (thr.to_weight T)))
    ∧ (∀ (pol : Policy) (q : Nat) (thr : WeightOrRatio) (T : Nat) (k : String) (eligible : Nat),
      pol.role_weight_total k = Except.ok eligible →
      pol.get_threshold { weight_kind := WeightKind.RoleWeight, quorum := q, threshold := thr }
          T k
        = Except.ok (max q (thr.to_weight eligible)))
    ∧ (∀ (num denom T : Nat), 0 < denom →
      WeightOrRatio.to_weight (WeightOrRatio.Ratio num denom) T = min (num * T / denom + 1) T)
    ∧ (∀ (w T : Nat), WeightOrRatio.to_weight (WeightOrRatio.Weight w) T = min w T)
    ∧ (∀ (pol : Policy) (vp : VotePolicy) (T : Nat) (k : String) (t : Nat),
      pol.get_threshold vp T k = Except.ok t → vp.quorum ≤ t)
    ∧ (∀ (pol : Policy) (q num denom : Nat) (k : String) (T1 T2 t1 t2 : Nat),
      T1 ≤ T2 →
      pol.get_threshold
          { weight_kind := WeightKind.TokenWeight, quorum := q,
            threshold := WeightOrRatio.Ratio num denom } T1 k = Except.ok t1 →
      pol.get_threshold
          { weight_kind := WeightKind.TokenWeight, quorum := q,
            threshold := WeightOrRatio.Ratio num denom } T2 k = Except.ok t2 →
      t1 ≤ t2) := by
  refine ⟨?_, ?_, ?_, ?_, ?_, ?_⟩
  · intro pol q thr T k
    rfl
  · intro pol q thr T k eligible h
    simp [Policy.get_threshold, h, ok_bind]
  · intro num denom T _
    rfl
  · intro w T
    rfl
  · intro pol vp T k t h
    obtain ⟨wk, q, thr⟩ := vp
    cases wk with
    | TokenWeight =>
      simp only [Policy.get_threshold, ok_bind, Except.ok.injEq] at h
      exact h ▸ le_max_left q _
    | RoleWeight =>
      cases hr : pol.role_weight_total k with
      | ok n =>
        simp only [Policy.get_threshold, hr, ok_bind, Except.ok.injEq] at h
        exact h ▸ le_max_left q _
      | error e =>
        simp only [Policy.get_threshold, hr, error_bind] at h
        exact absurd h (by simp)
  · intro pol q num denom k T1 T2 t1 t2 hT h1 h2
    simp only [Policy.get_threshold, ok_bind, WeightOrRatio.to_weight,
      Except.ok.injEq] at h1 h2
    subst h1
    subst h2
    have hdiv : num * T1 / denom ≤ num * T2 / denom :=
      Nat.div_le_div_right (Nat.mul_le_mul_left num hT)
    exact max_le_max (le_refl q) (min_le_min (Nat.add_le_add_right hdiv 1) hT)

/-- Witness for C5: the conjuncts applied at concrete policies: a token
weighted Weight(50) policy over total 100, the Ratio(1, 2) resolution at
total 5, the role weighted branch over the one-member council group, the
quorum lower bound at quorum 3, and ratio monotonicity between totals 10
and 12. -/
theorem C5_get_threshold_spec_witness :
    polMain.get_threshold
        { weight_kind := WeightKind.TokenWeight, quorum := 0,
          threshold := WeightOrRatio.Weight 50 } 100 ""
      = Except.ok (max 0 (WeightOrRatio.to_weight (WeightOrRatio.Weight 50) 100))
    ∧ polGroup.get_threshold
        { weight_kind := WeightKind.RoleWeight, quorum := 0,
          threshold := WeightOrRatio.Ratio 1 2 } 100 ""
      = Except.ok (max 0 (WeightOrRatio.to_weight (WeightOrRatio.Ratio 1 2) 1))
    ∧ WeightOrRatio.to_weight (WeightOrRatio.Ratio 1 2) 5 = min (1 * 5 / 2 + 1) 5
    ∧ (3 : Nat) ≤ 6
    ∧ (6 : Nat) ≤ 7 := by
  refine ⟨?_, ?_, ?_, ?_, ?_⟩
  · exact C5_get_threshold_spec.1 polMain 0 (WeightOrRatio.Weight 50) 100 ""
  · exact C5_get_threshold_spec.2.1 polGroup 0 (WeightOrRatio.Ratio 1 2) 100 "" 1 (by rfl)
  · exact C5_get_threshold_spec.2.2.1 1 2 5 (by decide)
  · exact C5_get_threshold_spec.2.2.2.2.1 polMain
      { weight_kind := WeightKind.TokenWeight, quorum := 3,
        threshold := WeightOrRatio.Ratio 1 2 } 10 "" 6 (by rfl)
  · exact C5_get_threshold_spec.2.2.2.2.2 polMain 3 1 2 "" 10 12 6 7 (by decide) (by rfl) (by rfl)

/-- C7 amended: for every bounty and receiver with a claim on it (and a
consistent nonzero stored claim count), execute_bounty_payout with
success = true removes the located claim, emits the transfer of
bounty.amount in bounty.token to the receiver, and DELETES the bounty only
when times was already zero before the decrement, otherwise persists it
with times decremented by one — so a bounty with times = 1 is persisted
with times = 0 rather than deleted; with success = false it only removes
the claim (the bounty registry is untouched and nothing is transferred).
The shortened claim list itself is persisted under the predecessor account
(see C6). -/
theorem C7_payout_semantics (env : Env) (c : Contract) (id : Nat) (receiver_id : AccountId)
    (b : Bounty) (claims : List BountyClaim) (claim_idx : Nat) (cnt : Nat)
    (hb : lookupL c.bounties id = some b)
    (hc : c.internal_get_claims id receiver_id = Except.ok (claims, claim_idx))
    (hn : lookupL c.bounty_claims_count id = some cnt)
    (h0 : cnt ≠ 0) :
    (Contract.internal_execute_bounty_payout env c id receiver_id true).map
        (fun r => (lookupL r.1.bounties id, lookupL r.1.bounty_claims_count id, r.2))
      = Except.ok
          ((if b.times = 0 then none else some { b with times := b.times - 1 }),
           some (cnt - 1),
           Contract.internal_payout b.token receiver_id b.amount)
    ∧ (Contract.internal_execute_bounty_payout env c id receiver_id false).map
        (fun r => (lookupL r.1.bounties id, lookupL r.1.bounty_claims_count id, r.2))
      = Except.ok (some b, some (cnt - 1), []) := by
  have hrc : Contract.internal_remove_claim env c id claims claim_idx
      = Except.ok { c with
          bounty_claimers :=
            if (claims.eraseIdx claim_idx).isEmpty
            then removeL c.bounty_claimers env.predecessor_account_id
            else insertL c.bounty_claimers env.predecessor_account_id
              (claims.eraseIdx claim_idx)
          bounty_claims_count := insertL c.bounty_claims_count id (cnt - 1) } := by
    simp [Contract.internal_remove_claim, hn, h0]
  constructor
  · by_cases htimes : b.times = 0
    · simp [Contract.internal_execute_bounty_payout, hb, hc, hrc, ok_bind, ebind_ok,
        emap_ok, htimes, lookupL_removeL_self, lookupL_insertL_self]
    · simp [Contract.internal_execute_bounty_payout, hb, hc, hrc, ok_bind, ebind_ok,
        emap_ok, htimes, lookupL_insertL_self]
  · simp [Contract.internal_execute_bounty_payout, hb, hc, hrc, ok_bind, ebind_ok,
      emap_ok, lookupL_insertL_self]

/-- Witness for C7: the amended payout semantics applied to the concrete
times = 1 bounty fixture: the successful payout persists it with times 0
and emits the 10-token transfer; the failed payout leaves the registry
unchanged; both decrement the claim count from 1 to 0. -/
theorem C7_payout_semantics_witness :
    (Contract.internal_execute_bounty_payout envAlice conTimes1 0 "alice" true).map
        (fun r => (lookupL r.1.bounties 0, lookupL r.1.bounty_claims_count 0, r.2))
      = Except.ok
          ((if bTimes1.times = 0 then none else some { bTimes1 with times := bTimes1.times - 1 }),
           some 0, Contract.internal_payout bTimes1.token "alice" bTimes1.amount)
    ∧ (Contract.internal_execute_bounty_payout envAlice conTimes1 0 "alice" false).map
        (fun r => (lookupL r.1.bounties 0, lookupL r.1.bounty_claims_count 0, r.2))
      = Except.ok (some bTimes1, some 0, []) :=
  C7_payout_semantics envAlice conTimes1 0 "alice" bTimes1 [claimMain] 0 1
    (by rfl) (by rfl) (by rfl) (by decide)

theorem internal_check_proposal_ok_perm (env : Env) (c : Contract)
    (instrs : List Instruction) (kind : String)
    (h : Contract.internal_check_proposal env c instrs = Except.ok kind) :
    Policy.can_execute_action c.policy (Contract.internal_user_info env)
      (Policy.match_proposal_kind c.policy instrs) Action.AddProposal = true := by
  simp only [Contract.internal_check_proposal, ensure] at h
  by_cases h1 : decide (c.policy.proposal_bond ≤ env.attached_deposit) = true
  · rw [if_pos h1, ok_bind] at h
    by_cases h2 : decide (instrs.length > 0) = true
    · rw [if_pos h2, ok_bind] at h
      by_cases h3 : Contract.is_valid_instruction_set instrs = true
      · rw [if_pos h3, ok_bind] at h
        rcases hg : instrs.get? 0 with _ | i
        · simp only [hg] at h
          rw [ok_bind] at h
          by_cases h5 : Policy.can_execute_action c.policy (Contract.internal_user_info env)
              (Policy.match_proposal_kind c.policy instrs) Action.AddProposal = true
          · exact h5
          · rw [if_neg h5, error_bind] at h
            exact absurd h (by simp)
        · cases i <;> simp only [hg] at h <;>
            first
            | (rw [ok_bind] at h
               by_cases h5 : Policy.can_execute_action c.policy (Contract.internal_user_info env)
                   (Policy.match_proposal_kind c.policy instrs) Action.AddProposal = true
               · exact h5
               · rw [if_neg h5, error_bind] at h
                 exact absurd h (by simp))
            | (by_cases h4 : c.staking_id.isNone = true
               · rw [if_pos h4, ok_bind] at h
                 by_cases h5 : Policy.can_execute_action c.policy (Contract.internal_user_info env)
                     (Policy.match_proposal_kind c.policy instrs) Action.AddProposal = true
                 · exact h5
                 · rw [if_neg h5, error_bind] at h
                   exact absurd h (by simp)
               · rw [if_neg h4, error_bind] at h
                 exact absurd h (by simp))
      · rw [if_neg h3, error_bind] at h
        exact absurd h (by simp)
    · rw [if_neg h2, error_bind] at h
      exact absurd h (by simp)
  · rw [if_neg h1, error_bind] at h
    exact absurd h (by simp)

/-- C8 amended: counter_propose reuses internal_check_proposal, which
checks the AddProposal action label (proposals.rs line 733), not
AddCounterProposal: a counter proposal succeeds only when the caller holds
a permission granting AddProposal under the matched kind of the new
instructions, and a caller without any such permission is rejected with
ERR_PERMISSION_DENIED once the earlier validation checks pass. -/
theorem C8_counter_propose_requires_add_proposal :
    (∀ (env : Env) (c : Contract) (id : Nat) (d : String) (instrs : List Instruction)
        (r : Contract × Nat),
      Contract.counter_propose env c id d instrs = Except.ok r →
      Policy.can_execute_action c.policy (Contract.internal_user_info env)
        (Policy.match_proposal_kind c.policy instrs) Action.AddProposal = true)
    ∧ (∀ (env : Env) (c : Contract) (id : Nat) (d : String) (instrs : List Instruction)
        (p : Proposal),
      lookupL c.proposals id = some p →
      c.policy.proposal_bond ≤ env.attached_deposit →
      0 < instrs.length →
      Contract.is_valid_instruction_set instrs = true →
      (∀ s, instrs.get? 0 ≠ some (Instruction.SetStakingContract s)) →
      Policy.can_execute_action c.policy (Contract.internal_user_info env)
        (Policy.match_proposal_kind c.policy instrs) Action.AddProposal = false →
      Contract.counter_propose env c id d instrs
        = Except.error "ERR_PERMISSION_DENIED") := by
  constructor
  · intro env c id d instrs r h
    cases hl : lookupL c.proposals id with
    | none => simp [Contract.counter_propose, hl] at h
    | some p =>
      simp only [Contract.counter_propose, hl] at h
      cases hk : Contract.internal_check_proposal env c instrs with
      | error e => rw [hk] at h; simp [error_bind] at h
      | ok kind => exact internal_check_proposal_ok_perm env c instrs kind hk
  · intro env c id d instrs p hl hbond hlen hvalid hstak hperm
    have h1 : decide (c.policy.proposal_bond ≤ env.attached_deposit) = true :=
      decide_eq_true hbond
    have h2 : decide (instrs.length > 0) = true := decide_eq_true hlen
    have hcheck : Contract.internal_check_proposal env c instrs
        = Except.error "ERR_PERMISSION_DENIED" := by
      simp only [Contract.internal_check_proposal, ensure]
      rw [if_pos h1, ok_bind, if_pos h2, ok_bind, if_pos hvalid, ok_bind]
      rcases hg : instrs.get? 0 with _ | i
      · rw [List.get?_eq_none] at hg
        omega
      · have hperm' : ¬ (Policy.can_execute_action c.policy (Contract.internal_user_info env)
            (Policy.match_proposal_kind c.policy instrs) Action.AddProposal = true) := by
          simp [hperm]
        cases i <;>
          first
          | exact absurd hg (hstak _)
          | rw [ok_bind, if_neg hperm', error_bind]
    simp only [Contract.counter_propose, hl]
    rw [hcheck, error_bind]

/-- Witness for C8 amended: bob, holding only the universal AddProposal
permission, counter-proposes successfully, so the success direction yields
his AddProposal permission; and under a policy granting only VoteApprove
his counter proposal is rejected with ERR_PERMISSION_DENIED. -/
theorem C8_counter_propose_requires_add_proposal_witness :
    Policy.can_execute_action conBond0.policy (Contract.internal_user_info envBob)
      (Policy.match_proposal_kind conBond0.policy [Instruction.Transfer "" "bob" 1])
      Action.AddProposal = true
    ∧ Contract.counter_propose envBob conNoAdd 0 "cp" [Instruction.Transfer "" "bob" 1]
      = Except.error "ERR_PERMISSION_DENIED" := by
  constructor
  · exact C8_counter_propose_requires_add_proposal.1 envBob conBond0 0 "cp"
      [Instruction.Transfer "" "bob" 1] _ (by rfl)
  · exact C8_counter_propose_requires_add_proposal.2 envBob conNoAdd 0 "cp"
      [Instruction.Transfer "" "bob" 1] propMain (by rfl) (by decide) (by decide)
      (by rfl) (fun s h => by simp at h) (by rfl)

/-- C9 amended: for every existing bounty, bounty_claim (with the attached
deposit equal to the bounty bond, a free claim slot and a valid deadline)
followed by bounty_giveup by the same caller restores the stored claim
count and the claim list of the caller to their pre-claim values, and emits
the bond refund exactly when now minus the start time of the new claim is
within the forgiveness period — PROVIDED the caller holds no other claim on
this bounty, because giveup locates the first claim in the list with the
given bounty id (see the counterexample for the general statement). -/
theorem C9_claim_giveup_round_trip (env1 env2 : Env) (c : Contract) (id deadline : Nat)
    (b : Bounty)
    (hb : lookupL c.bounties id = some b)
    (hdep : env1.attached_deposit = c.policy.bounty_bond)
    (hcnt : (lookupL c.bounty_claims_count id).getD 0 < b.times)
    (hdl : deadline ≤ b.max_deadline)
    (hpred : env2.predecessor_account_id = env1.predecessor_account_id)
    (hno : ∀ cl ∈ (lookupL c.bounty_claimers env1.predecessor_account_id).getD [],
      cl.bounty_id ≠ id)
    (ht : env1.block_timestamp ≤ env2.block_timestamp) :
    ((Contract.bounty_claim env1 c id deadline).bind
        (fun c1 => (Contract.bounty_giveup env2 c1 id).map
          (fun r => (r.2,
                     (lookupL r.1.bounty_claims_count id).getD 0,
                     (lookupL r.1.bounty_claimers env1.predecessor_account_id).getD []))))
      = Except.ok
          ((if c.policy.bounty_forgiveness_period
              < env2.block_timestamp - env1.block_timestamp
            then ([] : List Effect)
            else [Effect.transfer env1.predecessor_account_id c.policy.bounty_bond]),
           (lookupL c.bounty_claims_count id).getD 0,
           (lookupL c.bounty_claimers env1.predecessor_account_id).getD []) := by
  have e1 : (env1.attached_deposit == c.policy.bounty_bond) = true := by simp [hdep]
  have e2 : decide ((lookupL c.bounty_claims_count id).getD 0 < b.times) = true :=
    decide_eq_true hcnt
  have e3 : decide (deadline ≤ b.max_deadline) = true := decide_eq_true hdl
  have hclaim : Contract.bounty_claim env1 c id deadline
      = Except.ok { c with
          bounty_claims_count :=
            insertL c.bounty_claims_count id ((lookupL c.bounty_claims_count id).getD 0 + 1)
          bounty_claimers :=
            insertL c.bounty_claimers env1.predecessor_account_id
              (((lookupL c.bounty_claimers env1.predecessor_account_id).getD [])
                ++ [{ bounty_id := id, start_time := env1.block_timestamp,
                      deadline := deadline, completed := false }]) } := by
    simp only [Contract.bounty_claim, hb, ensure, e1, e2, e3, if_true, ok_bind]
  have hfind : Contract.internal_find_claim id
      (((lookupL c.bounty_claimers env1.predecessor_account_id).getD [])
        ++ [{ bounty_id := id, start_time := env1.block_timestamp,
              deadline := deadline, completed := false }])
      = some ((lookupL c.bounty_claimers env1.predecessor_account_id).getD []).length :=
    internal_find_claim_append _ hno rfl
  have hg2 : (((lookupL c.bounty_claimers env1.predecessor_account_id).getD [])
        ++ [({ bounty_id := id, start_time := env1.block_timestamp,
               deadline := deadline, completed := false } : BountyClaim)]).get?
      ((lookupL c.bounty_claimers env1.predecessor_account_id).getD []).length
      = some { bounty_id := id, start_time := env1.block_timestamp,
               deadline := deadline, completed := false } :=
    get?_append_length _ _
  have herase : (((lookupL c.bounty_claimers env1.predecessor_account_id).getD [])
        ++ [({ bounty_id := id, start_time := env1.block_timestamp,
               deadline := deadline, completed := false } : BountyClaim)]).eraseIdx
      ((lookupL c.bounty_claimers env1.predecessor_account_id).getD []).length
      = (lookupL c.bounty_claimers env1.predecessor_account_id).getD [] :=
    eraseIdx_append_length _ _
  have hlt : ¬ (env2.block_timestamp < env1.block_timestamp) := Nat.not_lt.mpr ht
  have hnz : ¬ ((lookupL c.bounty_claims_count id).getD 0 + 1 = 0) := Nat.succ_ne_zero _
  rw [hclaim, ebind_ok]
  simp only [Contract.bounty_giveup, Contract.internal_get_claims, hpred,
    lookupL_insertL_self, hfind, ok_bind, hg2]
  rw [if_neg hlt]
  simp only [Contract.internal_remove_claim, herase, lookupL_insertL_self]
  rw [if_neg hnz]
  simp only [Nat.add_sub_cancel, ok_bind, emap_ok, lookupL_insertL_self]
  by_cases hL : ((lookupL c.bounty_claimers env1.predecessor_account_id).getD []).isEmpty = true
  · have hLnil : (lookupL c.bounty_claimers env1.predecessor_account_id).getD [] = [] := by
      simpa using hL
    rw [if_pos hL]
    simp only [hpred, lookupL_removeL_self, hLnil, Option.getD_none, Option.getD_some]
  · rw [if_neg hL]
    simp only [hpred, lookupL_insertL_self, Option.getD_some]

/-- Witness for C9 amended: alice, with no existing claim, claims bounty 0
(bond 3 attached) at time 1 and gives it up at time 50, inside the
forgiveness period 100: the bond refund is emitted and both the claim count
and her (empty) claim list are back to their pre-claim values. -/
theorem C9_claim_giveup_round_trip_witness :
    ((Contract.bounty_claim envA1 conBounty 0 50).bind
        (fun c1 => (Contract.bounty_giveup envA50 c1 0).map
          (fun r => (r.2,
                     (lookupL r.1.bounty_claims_count 0).getD 0,
                     (lookupL r.1.bounty_claimers "alice").getD []))))
      = Except.ok ([Effect.transfer "alice" 3], 0, []) := by
  exact C9_claim_giveup_round_trip envA1 envA50 conBounty 0 50 bMain (by rfl) (by rfl)
    (by decide) (by decide) (by rfl)
    (by intro cl h; simp [conBounty, conMain, lookupL] at h) (by decide)

end Voyager
